import Mathlib

/-!
# Verification of the neurelix-nexus code-integration feature

This file gives a shallow embedding, in Lean 4, of the parts of the
repository that the frozen claims are about:

* the `TSK-123` auto-link detector and link creation
  (`detectTarefaKeys`, `createAutoLinks`, `processAutoLink`);
* the manual link upsert of the `git-links` function (`handleCreateLink`);
* the GitHub API retry wrapper (`withRetry`);
* the permission checks (`getProjectRole`, `canConnectGit`, `canReviewPR`);
* the OAuth state issuance and the two OAuth callback handlers
  (`handleOAuthStart`, `handleOAuthCallback`, and the public
  `github-oauth-callback` edge function);
* the GitHub App installation callback (`handleCallback`) and its
  repository sync (`syncRepos`);
* the two revocation handlers (`handleRevokeConnection`,
  `handleDeleteConnection`).

Pure functions of the source become Lean functions.  Database access is
modelled by explicit state passing over a `Db` record holding the rows of
each table that the handlers read or write; the outcomes of external
calls (GitHub token exchange, identity fetch, database errors) are inputs
of an environment record, so that every handler is a total, executable
function of its environment and the store.  `maybeSingle` follows
PostgREST semantics: it yields a row only when exactly one row matches
(with several matches it reports an error, which the handlers treat the
same as no row).
-/

namespace NeurelixNexus

/-! ## §1 Auto-link detector (`detectTarefaKeys`)

The source scans the text with the JavaScript regex
`/TSK-([A-Z0-9]+(?:-[A-Z0-9]+)*)/gi` and collects `TSK-` ++ group 1 of
each match into a `Set`.  The scanner below reproduces the `g`-flag
`matchAll` behaviour: leftmost matches, scanning resumes after each
match, greedy repetition.  With the `i` flag and no `u` flag,
`[A-Z0-9]` matches exactly the ASCII letters and digits. -/

/-- `[A-Z0-9]` under the `i` flag: ASCII letters and digits. -/
def isTskAlnum (c : Char) : Bool :=
  ('A' ≤ c && c ≤ 'Z') || ('a' ≤ c && c ≤ 'z') || ('0' ≤ c && c ≤ '9')

/-- Case-insensitive match of the literal letter `T`. -/
def isLetterT (c : Char) : Bool := c == 'T' || c == 't'

/-- Case-insensitive match of the literal letter `S`. -/
def isLetterS (c : Char) : Bool := c == 'S' || c == 's'

/-- Case-insensitive match of the literal letter `K`. -/
def isLetterK (c : Char) : Bool := c == 'K' || c == 'k'

/-- Greedy `[A-Z0-9]*`: the maximal alphanumeric run and the rest. -/
def takeAlnum : List Char → List Char × List Char
  | [] => ([], [])
  | c :: cs =>
    if isTskAlnum c then
      let r := takeAlnum cs
      (c :: r.1, r.2)
    else ([], c :: cs)

/-- Greedy `(?:-[A-Z0-9]+)*`: consumes hyphen-separated alphanumeric
groups while they last.  The fuel argument (any bound of the input
length) keeps the recursion structural. -/
def parseGroups : Nat → List Char → List Char × List Char
  | 0, cs => ([], cs)
  | fuel + 1, '-' :: c :: cs =>
    if isTskAlnum c then
      let r := takeAlnum cs
      let g := parseGroups fuel r.2
      ('-' :: c :: (r.1 ++ g.1), g.2)
    else ([], '-' :: c :: cs)
  | _ + 1, cs => ([], cs)

/-- Attempt the regex at the head of the input.  On success, returns the
text of capture group 1 (the part after `TSK-`) and the unconsumed rest. -/
def matchTsk : List Char → Option (List Char × List Char)
  | c1 :: c2 :: c3 :: c4 :: c5 :: rest =>
    if isLetterT c1 && isLetterS c2 && isLetterK c3 && c4 == '-' && isTskAlnum c5 then
      let r := takeAlnum rest
      let g := parseGroups r.2.length r.2
      some (c5 :: (r.1 ++ g.1), g.2)
    else none
  | _ => none

/-- `matchAll` scan: try the regex at every position, left to right,
resuming after the end of each match.  The fuel argument (any bound of
the input length) keeps the recursion structural. -/
def scanKeys : Nat → List Char → List (List Char)
  | 0, _ => []
  | _ + 1, [] => []
  | fuel + 1, c :: cs =>
    match matchTsk (c :: cs) with
    | some kr => kr.1 :: scanKeys fuel kr.2
    | none => scanKeys fuel cs

/-- JavaScript `Set` insertion: keep the first occurrence, in order. -/
def insertUnique (acc : List String) (x : String) : List String :=
  if x ∈ acc then acc else acc ++ [x]

/-- `detectTarefaKeys` of `_shared/autolink.ts`: scan the text for
`TSK-...` patterns and return the deduplicated canonical keys in first
occurrence order (the iteration order of the JavaScript `Set`). -/
def detectTarefaKeys (text : String) : List String :=
  let cs := text.data
  ((scanKeys cs.length cs).map (fun k => "TSK-" ++ String.mk k)).foldl insertUnique []

example : detectTarefaKeys "fix TSK-12 and tsk-12 again, also TSK-AB-7" =
    ["TSK-12", "TSK-AB-7"] := by decide

example : detectTarefaKeys "TSK-" = [] := by decide

example : detectTarefaKeys "" = [] := by decide

example : detectTarefaKeys "TSK-123-feature x tsk-abc-99" =
    ["TSK-123-feature", "TSK-abc-99"] := by decide

/-! ## §2 Data model

One record per table row, one `Db` record holding the tables the
verified handlers touch.  Field names follow the column names of the
schema; `protected` of the `branches` table is renamed `protected_flag`
because `protected` is a Lean keyword. -/

/-- A row of `tarefas` (only the columns the handlers select). -/
structure TarefaRow where
  id : String
  key : String
  project_id : String
deriving DecidableEq

/-- The `metadata` JSON column of `tarefa_git_links`: auto links carry
`entity_type`, `entity_id`, `auto_linked: true` and `detected_from`;
manual links carry `manual_link: true`. -/
inductive LinkMeta
  | auto (entity_type : String) (entity_id : String) (detected_from : Option String)
  | manual
deriving DecidableEq

/-- A row of `tarefa_git_links`. -/
structure LinkRow where
  tarefa_id : String
  provider : String
  branch : Option String
  commit_sha : Option String
  pr_number : Option Nat
  url : Option String
  created_by : Option String
  metadata : LinkMeta
deriving DecidableEq

/-- A row of `project_members`. -/
structure ProjectMemberRow where
  project_id : String
  user_id : String
  role : String
deriving DecidableEq

/-- A row of `pull_requests` (only the columns `canReviewPR` selects). -/
structure PullRequestRow where
  id : String
  author_id : String
  repo_id : String
deriving DecidableEq

/-- A row of `project_repos`. -/
structure ProjectRepoRow where
  repo_id : String
  project_id : String
deriving DecidableEq

/-- A row of `github_oauth_states`. -/
structure OAuthStateRow where
  state : String
  project_id : String
  user_id : String
  expires_at : Nat
deriving DecidableEq

/-- A row of `provider_connections`. -/
structure ConnectionRow where
  id : String
  project_id : String
  provider : String
  owner_type : String
  owner_name : String
  github_user_id : Option String
  username : Option String
  access_token_encrypted : Option String
  scopes : List String
  status : String
  installation_id : Option String
  secrets_ref : Option String
  created_by : Option String
  error_message : Option String
  updated_at : Option Nat
  last_sync_at : Option Nat
deriving DecidableEq

/-- A row of `repos`. -/
structure RepoRow where
  id : String
  connection_id : String
  provider_repo_id : String
  full_name : String
  default_branch : String
  visibility : String
  description : Option String
  url : String
  sync_status : String
  selected : Bool
  last_synced_at : Option Nat
deriving DecidableEq

/-- A row of `branches` (`protected` renamed to `protected_flag`). -/
structure BranchRow where
  repo_id : String
  name : String
  last_commit_sha : String
  is_default : Bool
  protected_flag : Bool
deriving DecidableEq

/-- The relational store. -/
structure Db where
  tarefas : List TarefaRow
  tarefa_git_links : List LinkRow
  project_members : List ProjectMemberRow
  pull_requests : List PullRequestRow
  project_repos : List ProjectRepoRow
  github_oauth_states : List OAuthStateRow
  provider_connections : List ConnectionRow
  repos : List RepoRow
  branches : List BranchRow
deriving DecidableEq

/-- PostgREST `maybeSingle()`: a row only when exactly one row matches;
zero rows give `null`, and two or more give an error whose `data` is
`null` — the handlers read only `data`, so both collapse to `none`. -/
def maybeSingle {α : Type} : List α → Option α
  | [x] => some x
  | _ => none

/-- JavaScript truthiness of an optional string (`undefined`, `null`
and `""` are falsy). -/
def strTruthy : Option String → Bool
  | some s => s != ""
  | none => false

/-- JavaScript truthiness of an optional number (`undefined`, `null`
and `0` are falsy). -/
def natTruthy : Option Nat → Bool
  | some n => n != 0
  | none => false

/-! ## §3 `createAutoLinks`, `processAutoLink` and the manual upsert -/

/-- The caller-supplied metadata of `createAutoLinks`. -/
structure AutoLinkMetadata where
  branchName : Option String
  commitSha : Option String
  prNumber : Option Nat
  detectedFrom : Option String
deriving DecidableEq

/-- The `existingLinkQuery` built by `createAutoLinks`: always
`tarefa_id` and `provider`, plus each of `branch` / `commit_sha` /
`pr_number` only when the corresponding metadata field is truthy. -/
def linkQueryMatches (md : AutoLinkMetadata) (tarefaId : String) (r : LinkRow) : Bool :=
  r.tarefa_id == tarefaId && r.provider == "github"
    && (!strTruthy md.branchName || r.branch == md.branchName)
    && (!strTruthy md.commitSha || r.commit_sha == md.commitSha)
    && (!natTruthy md.prNumber || r.pr_number == md.prNumber)

/-- The `linkData` row inserted by `createAutoLinks` for one tarefa. -/
def mkAutoLink (tarefaId : String) (entityType entityId : String)
    (md : AutoLinkMetadata) : LinkRow :=
  { tarefa_id := tarefaId
    provider := "github"
    branch := if strTruthy md.branchName then md.branchName else none
    commit_sha := if strTruthy md.commitSha then md.commitSha else none
    pr_number := if natTruthy md.prNumber then md.prNumber else none
    url := none
    created_by := none
    metadata := LinkMeta.auto entityType entityId md.detectedFrom }

/-- Loop body of `createAutoLinks`: skip when the `maybeSingle` lookup
finds an existing link, otherwise insert a new row. -/
def processTarefaLink (entityType entityId : String) (md : AutoLinkMetadata)
    (links : List LinkRow) (tarefaId : String) : List LinkRow :=
  match maybeSingle (links.filter (linkQueryMatches md tarefaId)) with
  | some _ => links
  | none => links ++ [mkAutoLink tarefaId entityType entityId md]

/-- `createAutoLinks` of `_shared/autolink.ts`: resolve the detected
keys to tarefas of the project, then create a link per resolved tarefa
unless one already exists. -/
def createAutoLinks (tarefaKeys : List String) (projectId : String) (_repoId : String)
    (entityType entityId : String) (md : AutoLinkMetadata) (db : Db) : Db :=
  if tarefaKeys.isEmpty then db
  else
    let tarefas := db.tarefas.filter
      (fun t => t.project_id == projectId && tarefaKeys.contains t.key)
    if tarefas.isEmpty then db
    else
      let links :=
        tarefas.foldl (fun ls t => processTarefaLink entityType entityId md ls t.id)
          db.tarefa_git_links
      { db with tarefa_git_links := links }

/-- `processAutoLink` of `_shared/autolink.ts`: detect keys, create the
links when any key was found (adding the first 200 characters of the
text as `detectedFrom`), and return the detected keys. -/
def processAutoLink (text : String) (projectId repoId : String)
    (entityType entityId : String) (md : AutoLinkMetadata) (db : Db) :
    List String × Db :=
  let keys := detectTarefaKeys text
  if keys.length > 0 then
    (keys, createAutoLinks keys projectId repoId entityType entityId
      { md with detectedFrom := some (text.take 200) } db)
  else (keys, db)

/-- The deduplication identity of `tarefa_git_links`: the conflict
target `tarefa_id,provider,branch,commit_sha,pr_number` of the upsert
in `handleCreateLink`. -/
def linkKeyTuple (r : LinkRow) : String × String × Option String × Option String × Option Nat :=
  (r.tarefa_id, r.provider, r.branch, r.commit_sha, r.pr_number)

/-- The database upsert performed by `handleCreateLink`
(`onConflict: "tarefa_id,provider,branch,commit_sha,pr_number"`,
`ignoreDuplicates: false`): update the conflicting row in place, else
append. -/
def upsertLink (rows : List LinkRow) (row : LinkRow) : List LinkRow :=
  if rows.any (fun r => linkKeyTuple r == linkKeyTuple row) then
    rows.map (fun r => if linkKeyTuple r == linkKeyTuple row then row else r)
  else rows ++ [row]

/-! ## §4 `withRetry` of `_shared/github-client.ts`

The wrapped function is modelled as a map from the attempt index to the
outcome of that invocation.  The trace records the result, how many
times the function was invoked, and every `setTimeout` wait performed,
in order. -/

/-- A thrown JavaScript error: an optional HTTP `status` property and a
message. -/
structure JsError where
  status : Option Nat
  msg : String
deriving DecidableEq

/-- The rate-limit test of `withRetry`: the error has a `status`
property equal to 403 or 429. -/
def isRateLimitError (e : JsError) : Bool :=
  match e.status with
  | some s => s == 403 || s == 429
  | none => false

/-- Execution trace of `withRetry`. -/
structure RetryTrace (T : Type) where
  result : Except JsError T
  calls : Nat
  sleeps : List Nat

/-- The retry loop: `i` attempts made so far, `remaining` loop
iterations left, the saved `lastError`, and the waits performed. -/
def withRetryGo {T : Type} (fn : Nat → Except JsError T) (delay : Nat) :
    Nat → Nat → Option JsError → List Nat → RetryTrace T
  | i, 0, lastError, sleeps =>
    { result := Except.error (lastError.getD { status := none, msg := "Max retries exceeded" })
      calls := i
      sleeps := sleeps }
  | i, remaining + 1, _, sleeps =>
    match fn i with
    | Except.ok v => { result := Except.ok v, calls := i + 1, sleeps := sleeps }
    | Except.error e =>
      if isRateLimitError e then
        withRetryGo fn delay (i + 1) remaining (some e) (sleeps ++ [delay * (i + 1)])
      else
        { result := Except.error e, calls := i + 1, sleeps := sleeps }

/-- `withRetry(fn, maxRetries, delay)`; the source defaults are
`maxRetries = 3` and `delay = 1000`. -/
def withRetry {T : Type} (fn : Nat → Except JsError T)
    (maxRetries delay : Nat) : RetryTrace T :=
  withRetryGo fn delay 0 maxRetries none []

/-! ## §5 Permission checks of `_shared/permissions.ts` -/

/-- `getProjectRole`: the caller's role row in `project_members`, via
`maybeSingle`. -/
def getProjectRole (db : Db) (userId projectId : String) : Option String :=
  match maybeSingle (db.project_members.filter
      (fun m => m.user_id == userId && m.project_id == projectId)) with
  | some m => some m.role
  | none => none

/-- `canConnectGit`: admin only. -/
def canConnectGit (db : Db) (userId projectId : String) : Bool :=
  getProjectRole db userId projectId == some "admin"

/-- `canReviewPR`: the author cannot review their own PR; otherwise any
member of the project the PR's repository is linked to can. -/
def canReviewPR (db : Db) (userId prId : String) : Bool :=
  match maybeSingle (db.pull_requests.filter (fun pr => pr.id == prId)) with
  | none => false
  | some pr =>
    if pr.author_id == userId then false
    else
      match maybeSingle (db.project_repos.filter (fun r => r.repo_id == pr.repo_id)) with
      | none => false
      | some projectRepo => (getProjectRole db userId projectRepo.project_id).isSome

/-! ## §6 OAuth handshake (`github-oauth` and `github-oauth-callback`)

Browser-facing responses.  URL assembly (`encodeURIComponent`,
frontend base URL) is abstracted into a structured redirect target that
records which UI location the `Location` header points at and the
human-readable reason it carries. -/

/-- The redirect targets the handlers produce. -/
inductive RedirectTarget
  | errorPage (message : String)
  | projectReposError (projectId : String) (message : String)
  | projectReposConnected (projectId : String)
  | selectReposConnected (projectId : String)
deriving DecidableEq

/-- An HTTP response: a 302 redirect, a JSON body with a status code,
or the empty CORS preflight response. -/
inductive HttpResponse
  | redirect (target : RedirectTarget)
  | json (status : Nat) (body : String)
  | noContent
deriving DecidableEq

/-- The status code of a response (redirects are issued with 302). -/
def HttpResponse.statusCode : HttpResponse → Nat
  | redirect _ => 302
  | json s _ => s
  | noContent => 200

/-- Outcome of the `POST https://github.com/login/oauth/access_token`
server-to-server call.  `httpError` carries the message the public
callback parses out of the error body; `okNoToken` carries the
`error_description`/`error` fallback message of a 200 body without an
`access_token`. -/
inductive TokenExchangeResult
  | httpError (parsedMsg : String)
  | okNoToken (errMsg : String)
  | ok (accessToken : String) (scope : List String)
deriving DecidableEq

/-- Outcome of the `GET https://api.github.com/user` identity fetch. -/
inductive UserFetchResult
  | httpError
  | ok (id : Nat) (login : String)
deriving DecidableEq

/-- Environment of one callback invocation: configuration, request
parameters, the clock, and the outcomes of the external calls the
handler makes. -/
structure CallbackEnv where
  hasClientId : Bool
  hasClientSecret : Bool
  hasRedirectUri : Bool
  method : String
  code : Option String
  state : Option String
  now : Nat
  tokenExchange : TokenExchangeResult
  userFetch : UserFetchResult
  updateError : Option String
  insertError : Option String
  newConnectionId : String
  crash : Bool
deriving DecidableEq

/-- The external effects a callback run performs, in order. -/
inductive CallbackAction
  | tokenExchange
  | fetchUser
  | updateConnection
  | insertConnection
  | deleteState
  | audit
deriving DecidableEq

/-- Result of a callback run: the response, the store afterwards, and
the effects performed. -/
structure CallbackResult where
  response : HttpResponse
  db : Db
  actions : List CallbackAction
deriving DecidableEq

/-- The state validation query of both callback handlers:
`eq("state", s).gt("expires_at", now).maybeSingle()`. -/
def findValidState (db : Db) (s : String) (now : Nat) : Option OAuthStateRow :=
  maybeSingle (db.github_oauth_states.filter
    (fun r => r.state == s && now < r.expires_at))

/-- The state row inserted by `handleOAuthStart`: a fixed five-minute
expiry (`Date.now() + 5 * 60 * 1000`). -/
def mkOAuthStateRow (stateToken projectId userId : String) (now : Nat) : OAuthStateRow :=
  { state := stateToken, project_id := projectId, user_id := userId
    expires_at := now + 5 * 60 * 1000 }

/-- Environment of `POST /start`. -/
structure StartEnv where
  projectId : Option String
  stateToken : String
  now : Nat
  insertError : Bool
  hasClientId : Bool
  hasRedirectUri : Bool
deriving DecidableEq

/-- `handleOAuthStart` of `github-oauth`: authorize, mint the state with
a five-minute expiry, store it, then return the authorize URL. -/
def handleOAuthStart (env : StartEnv) (userId : String) (db : Db) : HttpResponse × Db :=
  if !strTruthy env.projectId then (HttpResponse.json 400 "projectId is required", db)
  else
    let projectId := env.projectId.getD ""
    if !canConnectGit db userId projectId then
      (HttpResponse.json 403 "Forbidden: Only admins can connect GitHub", db)
    else if env.insertError then (HttpResponse.json 500 "Failed to initiate OAuth", db)
    else
      let db1 := { db with github_oauth_states :=
        db.github_oauth_states ++ [mkOAuthStateRow env.stateToken projectId userId env.now] }
      if !(env.hasClientId && env.hasRedirectUri) then
        (HttpResponse.json 500 "GitHub OAuth not configured", db1)
      else (HttpResponse.json 200 "authorizeUrl", db1)

/-- Success epilogue shared by the two branches of
`handleOAuthCallback`: delete the consumed state
(`delete().eq("state", state)`), log the audit event, redirect. -/
def finishOAuthCallback (db : Db) (stateParam projectId : String)
    (acts : List CallbackAction) : CallbackResult :=
  let db1 := { db with github_oauth_states :=
    db.github_oauth_states.filter (fun r => !(r.state == stateParam)) }
  { response := HttpResponse.redirect (RedirectTarget.selectReposConnected projectId)
    db := db1
    actions := acts ++ [CallbackAction.deleteState, CallbackAction.audit] }

/-- `handleOAuthCallback` of the `github-oauth` function (the
authenticated function's GET `/callback` branch): validate config and
parameters, validate the state, exchange the code, fetch the GitHub
identity, upsert the connection by (project, provider), delete the
state, audit, redirect. -/
def handleOAuthCallback (env : CallbackEnv) (db : Db) : CallbackResult :=
  if !(env.hasClientId && env.hasClientSecret && env.hasRedirectUri) then
    { response := HttpResponse.redirect (RedirectTarget.errorPage "GitHub OAuth not configured")
      db := db, actions := [] }
  else if !(strTruthy env.code && strTruthy env.state) then
    { response := HttpResponse.redirect (RedirectTarget.errorPage "Missing code or state parameter")
      db := db, actions := [] }
  else
    let stateParam := env.state.getD ""
    match findValidState db stateParam env.now with
    | none =>
      { response := HttpResponse.redirect (RedirectTarget.errorPage "Invalid or expired state")
        db := db, actions := [] }
    | some oauthState =>
      match env.tokenExchange with
      | TokenExchangeResult.httpError _ =>
        { response := HttpResponse.redirect
            (RedirectTarget.errorPage "Failed to exchange code for token")
          db := db, actions := [CallbackAction.tokenExchange] }
      | TokenExchangeResult.okNoToken _ =>
        { response := HttpResponse.redirect
            (RedirectTarget.errorPage "No access token received")
          db := db, actions := [CallbackAction.tokenExchange] }
      | TokenExchangeResult.ok accessToken scope =>
        match env.userFetch with
        | UserFetchResult.httpError =>
          { response := HttpResponse.redirect
              (RedirectTarget.errorPage "Failed to fetch GitHub user")
            db := db, actions := [CallbackAction.tokenExchange, CallbackAction.fetchUser] }
        | UserFetchResult.ok ghId login =>
          let existing := maybeSingle (db.provider_connections.filter
            (fun c => c.project_id == oauthState.project_id && c.provider == "github"))
          match existing with
          | some conn =>
            match env.updateError with
            | some _ =>
              { response := HttpResponse.redirect
                  (RedirectTarget.errorPage "Failed to update connection")
                db := db
                actions := [CallbackAction.tokenExchange, CallbackAction.fetchUser,
                  CallbackAction.updateConnection] }
            | none =>
              let conns := db.provider_connections.map (fun c =>
                if c.id == conn.id then
                  { c with github_user_id := some (toString ghId)
                           username := some login
                           access_token_encrypted := some accessToken
                           scopes := scope
                           status := "active"
                           updated_at := some env.now }
                else c)
              finishOAuthCallback { db with provider_connections := conns }
                stateParam oauthState.project_id
                [CallbackAction.tokenExchange, CallbackAction.fetchUser,
                  CallbackAction.updateConnection]
          | none =>
            match env.insertError with
            | some _ =>
              { response := HttpResponse.redirect
                  (RedirectTarget.errorPage "Failed to create connection")
                db := db
                actions := [CallbackAction.tokenExchange, CallbackAction.fetchUser,
                  CallbackAction.insertConnection] }
            | none =>
              let newConn : ConnectionRow :=
                { id := env.newConnectionId
                  project_id := oauthState.project_id
                  provider := "github"
                  owner_type := "user"
                  owner_name := login
                  github_user_id := some (toString ghId)
                  username := some login
                  access_token_encrypted := some accessToken
                  scopes := scope
                  status := "active"
                  installation_id := none
                  secrets_ref := none
                  created_by := some oauthState.user_id
                  error_message := none
                  updated_at := none
                  last_sync_at := none }
              finishOAuthCallback
                { db with provider_connections := db.provider_connections ++ [newConn] }
                stateParam oauthState.project_id
                [CallbackAction.tokenExchange, CallbackAction.fetchUser,
                  CallbackAction.insertConnection]

/-- The project lookup the public callback performs on its error paths:
when the `state` parameter is truthy, fetch the row's `project_id`
without the expiry filter, and use it only when itself truthy. -/
def lookupStateProjectId (db : Db) (stateParam : Option String) : Option String :=
  match stateParam with
  | some s =>
    if s != "" then
      match maybeSingle (db.github_oauth_states.filter (fun r => r.state == s)) with
      | some r => if r.project_id != "" then some r.project_id else none
      | none => none
    else none
  | none => none

/-- Error redirect of the public callback before the state is
validated: to the project's repos page when a project could be
recovered from the state row, otherwise to the generic error page. -/
def callbackErrorRedirect (db : Db) (stateParam : Option String)
    (message : String) : HttpResponse :=
  match lookupStateProjectId db stateParam with
  | some pid => HttpResponse.redirect (RedirectTarget.projectReposError pid message)
  | none => HttpResponse.redirect (RedirectTarget.errorPage message)

/-- Success epilogue of the public callback: delete the consumed state,
audit, redirect to the repos page. -/
def finishPublicCallback (db : Db) (stateParam projectId : String)
    (acts : List CallbackAction) : CallbackResult :=
  let db1 := { db with github_oauth_states :=
    db.github_oauth_states.filter (fun r => !(r.state == stateParam)) }
  { response := HttpResponse.redirect (RedirectTarget.projectReposConnected projectId)
    db := db1
    actions := acts ++ [CallbackAction.deleteState, CallbackAction.audit] }

/-- The `try` body of the public `github-oauth-callback` function: same
handshake as `handleOAuthCallback`, but its error redirects recover the
project from the state row, the connection rows also receive a
`secrets_ref`, and failure messages carry the upstream error text. -/
def publicCallbackBody (env : CallbackEnv) (db : Db) : CallbackResult :=
  if !(env.hasClientId && env.hasClientSecret && env.hasRedirectUri) then
    { response := callbackErrorRedirect db env.state "GitHub OAuth not configured"
      db := db, actions := [] }
  else if !(strTruthy env.code && strTruthy env.state) then
    { response := callbackErrorRedirect db env.state "Missing code or state parameter"
      db := db, actions := [] }
  else
    let stateParam := env.state.getD ""
    match findValidState db stateParam env.now with
    | none =>
      { response := callbackErrorRedirect db env.state "Invalid or expired state"
        db := db, actions := [] }
    | some oauthState =>
      let userId := oauthState.user_id
      let projectId := oauthState.project_id
      match env.tokenExchange with
      | TokenExchangeResult.httpError parsedMsg =>
        { response := HttpResponse.redirect
            (RedirectTarget.projectReposError projectId parsedMsg)
          db := db, actions := [CallbackAction.tokenExchange] }
      | TokenExchangeResult.okNoToken errMsg =>
        { response := HttpResponse.redirect
            (RedirectTarget.projectReposError projectId errMsg)
          db := db, actions := [CallbackAction.tokenExchange] }
      | TokenExchangeResult.ok accessToken scope =>
        match env.userFetch with
        | UserFetchResult.httpError =>
          { response := HttpResponse.redirect
              (RedirectTarget.projectReposError projectId "Failed to fetch GitHub user")
            db := db, actions := [CallbackAction.tokenExchange, CallbackAction.fetchUser] }
        | UserFetchResult.ok ghId login =>
          let existing := maybeSingle (db.provider_connections.filter
            (fun c => c.project_id == oauthState.project_id && c.provider == "github"))
          match existing with
          | some conn =>
            match env.updateError with
            | some m =>
              { response := HttpResponse.redirect (RedirectTarget.projectReposError
                  projectId ("Failed to update connection: " ++ m))
                db := db
                actions := [CallbackAction.tokenExchange, CallbackAction.fetchUser,
                  CallbackAction.updateConnection] }
            | none =>
              let conns := db.provider_connections.map (fun c =>
                if c.id == conn.id then
                  { c with github_user_id := some (toString ghId)
                           username := some login
                           access_token_encrypted := some accessToken
                           scopes := scope
                           status := "active"
                           updated_at := some env.now
                           secrets_ref := some ("github_oauth_" ++ projectId ++ "_" ++ userId) }
                else c)
              finishPublicCallback { db with provider_connections := conns }
                stateParam projectId
                [CallbackAction.tokenExchange, CallbackAction.fetchUser,
                  CallbackAction.updateConnection]
          | none =>
            match env.insertError with
            | some m =>
              { response := HttpResponse.redirect (RedirectTarget.projectReposError
                  projectId ("Failed to create connection: " ++ m))
                db := db
                actions := [CallbackAction.tokenExchange, CallbackAction.fetchUser,
                  CallbackAction.insertConnection] }
            | none =>
              let newConn : ConnectionRow :=
                { id := env.newConnectionId
                  project_id := projectId
                  provider := "github"
                  owner_type := "user"
                  owner_name := login
                  github_user_id := some (toString ghId)
                  username := some login
                  access_token_encrypted := some accessToken
                  scopes := scope
                  status := "active"
                  installation_id := none
                  secrets_ref := some ("github_oauth_" ++ projectId ++ "_" ++ userId)
                  created_by := some userId
                  error_message := none
                  updated_at := none
                  last_sync_at := none }
              finishPublicCallback
                { db with provider_connections := db.provider_connections ++ [newConn] }
                stateParam projectId
                [CallbackAction.tokenExchange, CallbackAction.fetchUser,
                  CallbackAction.insertConnection]

/-- The full `serve` of the public `github-oauth-callback` function:
CORS preflight, the 405 guard, then the `try`/`catch` around the body.
`env.crash` models an exception raised inside the `try` block; the
`catch` answers with the same project-aware error redirect (database
writes preceding the exception are not modelled — the claims about the
crash path concern only the response). -/
def publicCallbackServe (env : CallbackEnv) (db : Db) : CallbackResult :=
  if env.method == "OPTIONS" then
    { response := HttpResponse.noContent, db := db, actions := [] }
  else if env.method != "GET" then
    { response := HttpResponse.json 405 "Method not allowed", db := db, actions := [] }
  else if env.crash then
    { response := callbackErrorRedirect db env.state "Internal server error"
      db := db, actions := [] }
  else publicCallbackBody env db

/-! ## §7 GitHub App installation callback and repository sync
(`git-connect`) -/

/-- A branch returned by `octokit.repos.listBranches`. -/
structure FetchedBranch where
  name : String
  commit_sha : String
  protected_flag : Bool
deriving DecidableEq

/-- A repository returned by
`octokit.apps.listInstallationReposForAuthenticatedUser`.
`branchesFetch = none` models `listBranches` throwing for that
repository (caught and logged inside `syncBranches`). -/
structure FetchedRepo where
  provider_repo_id : String
  full_name : String
  default_branch : Option String
  visibility : Option String
  description : Option String
  html_url : String
  branchesFetch : Option (List FetchedBranch)
deriving DecidableEq

/-- Outcome of building the installation client and listing its
repositories. -/
inductive SyncFetchResult
  | clientError (msg : String)
  | ok (repos : List FetchedRepo)
deriving DecidableEq

/-- Environment of one `syncRepos` run. -/
structure SyncEnv where
  fetch : SyncFetchResult
  repoUpsertErrors : List String
  now : Nat
deriving DecidableEq

/-- JavaScript `a || b` for an optional string (`""` is falsy). -/
def strOr (o : Option String) (d : String) : String :=
  match o with
  | some s => if s != "" then s else d
  | none => d

/-- JavaScript `a || null` for an optional string. -/
def strOrNull (o : Option String) : Option String :=
  match o with
  | some s => if s != "" then some s else none
  | none => none

/-- The `catch` of `syncRepos`: mark the connection as errored. -/
def syncMarkError (db : Db) (connectionId msg : String) : Db :=
  { db with provider_connections := db.provider_connections.map (fun c =>
      if c.id == connectionId then
        { c with status := "error", error_message := some msg }
      else c) }

/-- The `repos` upsert of `syncRepos`
(`onConflict: "connection_id,provider_repo_id"`).  The row id of a
fresh insert is database-generated; it is modelled deterministically as
`connectionId ++ ":" ++ provider_repo_id`. -/
def upsertRepoRow (rows : List RepoRow) (connectionId : String) (fr : FetchedRepo)
    (now : Nat) : List RepoRow :=
  if rows.any (fun r =>
      r.connection_id == connectionId && r.provider_repo_id == fr.provider_repo_id) then
    rows.map (fun r =>
      if r.connection_id == connectionId && r.provider_repo_id == fr.provider_repo_id then
        { r with full_name := fr.full_name
                 default_branch := strOr fr.default_branch "main"
                 visibility := strOr fr.visibility "private"
                 description := strOrNull fr.description
                 url := fr.html_url
                 sync_status := "synced"
                 last_synced_at := some now }
      else r)
  else
    rows ++ [{ id := connectionId ++ ":" ++ fr.provider_repo_id
               connection_id := connectionId
               provider_repo_id := fr.provider_repo_id
               full_name := fr.full_name
               default_branch := strOr fr.default_branch "main"
               visibility := strOr fr.visibility "private"
               description := strOrNull fr.description
               url := fr.html_url
               sync_status := "synced"
               selected := false
               last_synced_at := some now }]

/-- The `branches` upsert of `syncBranches`
(`onConflict: "repo_id,name"`). -/
def upsertBranchRow (rows : List BranchRow) (repoId : String)
    (fb : FetchedBranch) : List BranchRow :=
  let row : BranchRow :=
    { repo_id := repoId
      name := fb.name
      last_commit_sha := fb.commit_sha
      is_default := fb.name == "main" || fb.name == "master"
      protected_flag := fb.protected_flag }
  if rows.any (fun r => r.repo_id == repoId && r.name == fb.name) then
    rows.map (fun r => if r.repo_id == repoId && r.name == fb.name then row else r)
  else rows ++ [row]

/-- `syncBranches`: upsert every listed branch; a listing failure is
caught and leaves the table untouched. -/
def syncBranches (rows : List BranchRow) (repoId : String)
    (fetch : Option (List FetchedBranch)) : List BranchRow :=
  match fetch with
  | none => rows
  | some bs => bs.foldl (fun acc fb => upsertBranchRow acc repoId fb) rows

/-- `syncRepos` of `git-connect`: upsert each fetched repository and
its branches, then stamp `last_sync_at`; any thrown error marks the
connection as `error`. -/
def syncRepos (env : SyncEnv) (db : Db) (connectionId : String) : Db :=
  match maybeSingle (db.provider_connections.filter (fun c => c.id == connectionId)) with
  | none => syncMarkError db connectionId "Connection not found or invalid"
  | some conn =>
    if !strTruthy conn.installation_id then
      syncMarkError db connectionId "Connection not found or invalid"
    else
      match env.fetch with
      | SyncFetchResult.clientError msg => syncMarkError db connectionId msg
      | SyncFetchResult.ok fetched =>
        let db1 := fetched.foldl (fun acc fr =>
          if env.repoUpsertErrors.contains fr.provider_repo_id then acc
          else
            let repos1 := upsertRepoRow acc.repos connectionId fr env.now
            let acc1 := { acc with repos := repos1 }
            match maybeSingle (repos1.filter (fun r =>
                r.connection_id == connectionId
                  && r.provider_repo_id == fr.provider_repo_id)) with
            | some syncedRepo =>
              { acc1 with branches := syncBranches acc1.branches syncedRepo.id fr.branchesFetch }
            | none => acc1) db
        { db1 with provider_connections := db1.provider_connections.map (fun c =>
            if c.id == connectionId then { c with last_sync_at := some env.now } else c) }

/-- Outcome of `octokit.apps.getInstallation`. -/
inductive InstallationFetchResult
  | fetchError
  | ok (accountType : Option String) (accountLogin : Option String)
deriving DecidableEq

/-- Environment of the GitHub App installation callback. -/
structure AppCallbackEnv where
  projectId : Option String
  installationId : Option String
  provider : Option String
  ownerType : Option String
  ownerName : Option String
  installationFetch : InstallationFetchResult
  insertError : Bool
  newConnectionId : String
  sync : SyncEnv
deriving DecidableEq

/-- `handleCallback` of `git-connect` (`POST /callback` after the GitHub
App installation): authorize, fetch the installation, insert a new
connection row, audit, run the initial sync. -/
def handleCallback (env : AppCallbackEnv) (userId : String) (db : Db) :
    HttpResponse × Db :=
  if !(strTruthy env.projectId && strTruthy env.installationId) then
    (HttpResponse.json 400 "projectId and installationId are required", db)
  else
    let projectId := env.projectId.getD ""
    let installationId := env.installationId.getD ""
    if !canConnectGit db userId projectId then (HttpResponse.json 403 "Forbidden", db)
    else
      match env.installationFetch with
      | InstallationFetchResult.fetchError =>
        (HttpResponse.json 500 "Failed to process callback", db)
      | InstallationFetchResult.ok accountType accountLogin =>
        if env.insertError then (HttpResponse.json 500 "Failed to create connection", db)
        else
          let newConn : ConnectionRow :=
            { id := env.newConnectionId
              project_id := projectId
              provider := strOr env.provider "github"
              owner_type := strOr env.ownerType
                (if accountType == some "Organization" then "org" else "user")
              owner_name := strOr env.ownerName (strOr accountLogin "")
              github_user_id := none
              username := none
              access_token_encrypted := none
              scopes := []
              status := "active"
              installation_id := some installationId
              secrets_ref := some ("github_installation_" ++ installationId)
              created_by := some userId
              error_message := none
              updated_at := none
              last_sync_at := none }
          let db1 := { db with provider_connections := db.provider_connections ++ [newConn] }
          let db2 := syncRepos env.sync db1 env.newConnectionId
          (HttpResponse.json 200 "connection", db2)

/-! ## §8 Revocation (`POST /connection/revoke` of `github-oauth` and
`DELETE /connections/:id` of `git-connect`) -/

/-- Environment of `handleRevokeConnection`. -/
structure RevokeEnv where
  projectId : Option String
  updateError : Bool
deriving DecidableEq

/-- `handleRevokeConnection` of `github-oauth`: authorize, best-effort
revoke the token at GitHub (its outcome is ignored), set the connection
status to `revoked`, clear `selected` on the repositories of that
connection, audit. -/
def handleRevokeConnection (env : RevokeEnv) (userId : String) (db : Db) :
    HttpResponse × Db :=
  if !strTruthy env.projectId then (HttpResponse.json 400 "projectId is required", db)
  else
    let projectId := env.projectId.getD ""
    if !canConnectGit db userId projectId then (HttpResponse.json 403 "Forbidden", db)
    else
      match maybeSingle (db.provider_connections.filter
          (fun c => c.project_id == projectId && c.provider == "github")) with
      | none => (HttpResponse.json 404 "Connection not found", db)
      | some conn =>
        if env.updateError then (HttpResponse.json 500 "Failed to revoke connection", db)
        else
          let conns := db.provider_connections.map (fun c =>
            if c.id == conn.id then { c with status := "revoked" } else c)
          let reposCleared := db.repos.map (fun r =>
            if r.connection_id == conn.id then { r with selected := false } else r)
          (HttpResponse.json 200 "ok",
            { db with provider_connections := conns, repos := reposCleared })

/-- Environment of `handleDeleteConnection`. -/
structure DeleteEnv where
  updateError : Bool
deriving DecidableEq

/-- `handleDeleteConnection` of `git-connect`: authorize via the
connection's project, set the connection status to `revoked`, audit.
It does not touch the `repos` table. -/
def handleDeleteConnection (env : DeleteEnv) (connectionId userId : String) (db : Db) :
    HttpResponse × Db :=
  match maybeSingle (db.provider_connections.filter (fun c => c.id == connectionId)) with
  | none => (HttpResponse.json 404 "Connection not found", db)
  | some conn =>
    if !canConnectGit db userId conn.project_id then (HttpResponse.json 403 "Forbidden", db)
    else if env.updateError then (HttpResponse.json 500 "Failed to revoke connection", db)
    else
      let conns := db.provider_connections.map (fun c =>
        if c.id == connectionId then { c with status := "revoked" } else c)
      (HttpResponse.json 200 "success", { db with provider_connections := conns })

/-- The empty store (used by concrete witnesses and counterexamples). -/
def emptyDb : Db :=
  { tarefas := [], tarefa_git_links := [], project_members := [], pull_requests := []
    project_repos := [], github_oauth_states := [], provider_connections := []
    repos := [], branches := [] }

/-! ## §9 Lemmas about the detector -/

theorem nodup_foldl_insertUnique (l : List String) (acc : List String)
    (h : acc.Nodup) : (l.foldl insertUnique acc).Nodup := by
  induction l generalizing acc with
  | nil => exact h
  | cons x xs ih =>
    apply ih
    unfold insertUnique
    split
    · exact h
    · next hx => simp [List.nodup_append, h, hx]

theorem mem_foldl_insertUnique (l acc : List String) (y : String)
    (h : y ∈ l.foldl insertUnique acc) : y ∈ acc ∨ y ∈ l := by
  induction l generalizing acc with
  | nil => exact Or.inl h
  | cons x xs ih =>
    rcases ih _ h with h' | h'
    · unfold insertUnique at h'
      split at h'
      · exact Or.inl h'
      · rcases List.mem_append.1 h' with h'' | h''
        · exact Or.inl h''
        · simp only [List.mem_singleton] at h''
          subst h''
          exact Or.inr (List.mem_cons_self _ _)
    · exact Or.inr (List.mem_cons_of_mem _ h')

theorem matchTsk_fst_ne_nil {l : List Char} {kr : List Char × List Char}
    (h : matchTsk l = some kr) : kr.1 ≠ [] := by
  unfold matchTsk at h
  split at h
  · split at h
    · simp only [Option.some.injEq] at h
      subst h
      simp
    · exact absurd h (by simp)
  · exact absurd h (by simp)

theorem scanKeys_mem_ne_nil (fuel : Nat) (l : List Char) (k : List Char)
    (h : k ∈ scanKeys fuel l) : k ≠ [] := by
  induction fuel generalizing l with
  | zero => simp [scanKeys] at h
  | succ n ih =>
    cases l with
    | nil => simp [scanKeys] at h
    | cons c cs =>
      unfold scanKeys at h
      cases hm : matchTsk (c :: cs) with
      | none =>
        rw [hm] at h
        exact ih _ h
      | some kr =>
        rw [hm] at h
        rcases List.mem_cons.1 h with h' | h'
        · subst h'
          exact matchTsk_fst_ne_nil hm
        · exact ih _ h'

/-! ## §10 The claims -/

/-- C3: `detectTarefaKeys` returns the deduplicated set of canonical
task keys: the output has no duplicates; every returned key is `TSK-`
followed by a nonempty remainder; the worked example
`"fix TSK-12 and tsk-12 again, also TSK-AB-7"` yields exactly
`TSK-12` and `TSK-AB-7` (case-insensitive match, canonical re-prefix,
set deduplication); and a bare `TSK-` yields no key. -/
theorem detectTarefaKeys_spec (t : String) :
    (detectTarefaKeys t).Nodup
    ∧ (∀ k ∈ detectTarefaKeys t, ∃ r : List Char, r ≠ [] ∧ k = "TSK-" ++ String.mk r)
    ∧ detectTarefaKeys "fix TSK-12 and tsk-12 again, also TSK-AB-7" = ["TSK-12", "TSK-AB-7"]
    ∧ detectTarefaKeys "TSK-" = [] := by
  refine ⟨nodup_foldl_insertUnique _ _ List.nodup_nil, ?_, by decide, by decide⟩
  intro k hk
  unfold detectTarefaKeys at hk
  rcases mem_foldl_insertUnique _ _ _ hk with h | h
  · simp at h
  · rcases List.mem_map.1 h with ⟨r, hr, rfl⟩
    exact ⟨r, scanKeys_mem_ne_nil _ _ _ hr, rfl⟩

/-- Witness for C3: the key `TSK-AB-7` returned on the worked example
has the canonical `TSK-` prefix and a nonempty remainder. -/
theorem detectTarefaKeys_spec_witness :
    ∃ r : List Char, r ≠ [] ∧ "TSK-AB-7" = "TSK-" ++ String.mk r :=
  (detectTarefaKeys_spec "fix TSK-12 and tsk-12 again, also TSK-AB-7").2.1
    "TSK-AB-7" (by decide)

/-- C10: `processAutoLink` returns exactly the keys `detectTarefaKeys`
computes on the text — for every store, so the returned keys are
unaffected by task resolution or by link creation — and when no key is
detected it leaves the store untouched. -/
theorem processAutoLink_returns_detected_keys (text : String)
    (projectId repoId entityType entityId : String)
    (md : AutoLinkMetadata) (db : Db) :
    (processAutoLink text projectId repoId entityType entityId md db).1
        = detectTarefaKeys text
    ∧ (detectTarefaKeys text = [] →
        (processAutoLink text projectId repoId entityType entityId md db).2 = db) := by
  constructor
  · unfold processAutoLink
    dsimp only
    split <;> rfl
  · intro h
    simp [processAutoLink, h]

/-- Witness for C10: on a text with no key and the empty store, the
store is returned unchanged. -/
theorem processAutoLink_returns_detected_keys_witness :
    (processAutoLink "no task keys here" "p1" "r1" "commit" "e1"
        { branchName := none, commitSha := none, prNumber := none, detectedFrom := none }
        emptyDb).2 = emptyDb :=
  (processAutoLink_returns_detected_keys "no task keys here" "p1" "r1" "commit" "e1"
    { branchName := none, commitSha := none, prNumber := none, detectedFrom := none }
    emptyDb).2 (by decide)

/-- C6: invoked on a function whose every invocation fails with HTTP
403/429, `withRetry` makes exactly 3 calls, waits `delay * attempt`
between them (linearly increasing; the trace records every wait of the
loop), and raises the last error; a first invocation failing with any
other status raises immediately after 1 call with no wait; a successful
first invocation returns its result after 1 call. -/
theorem withRetry_spec {T : Type} (fn : Nat → Except JsError T) (delay : Nat)
    (e0 e1 e2 e : JsError) (v : T) :
    (fn 0 = Except.error e0 → fn 1 = Except.error e1 → fn 2 = Except.error e2 →
        isRateLimitError e0 = true → isRateLimitError e1 = true →
        isRateLimitError e2 = true →
        (withRetry fn 3 delay).result = Except.error e2
          ∧ (withRetry fn 3 delay).calls = 3
          ∧ (withRetry fn 3 delay).sleeps = [delay, delay * 2, delay * 3])
    ∧ (fn 0 = Except.error e → isRateLimitError e = false →
        (withRetry fn 3 delay).result = Except.error e
          ∧ (withRetry fn 3 delay).calls = 1
          ∧ (withRetry fn 3 delay).sleeps = [])
    ∧ (fn 0 = Except.ok v →
        (withRetry fn 3 delay).result = Except.ok v
          ∧ (withRetry fn 3 delay).calls = 1
          ∧ (withRetry fn 3 delay).sleeps = []) := by
  refine ⟨?_, ?_, ?_⟩
  · intro h0 h1 h2 r0 r1 r2
    simp [withRetry, withRetryGo, h0, h1, h2, r0, r1, r2]
  · intro h0 r0
    simp [withRetry, withRetryGo, h0, r0]
  · intro h0
    simp [withRetry, withRetryGo, h0]

/-- The 429 error used by the C6 witness. -/
def rateLimitErr : JsError := { status := some 429, msg := "rate limited" }

/-- Witness for C6: a function that always fails with 429 is invoked
exactly 3 times with waits `delay`, `2*delay`, `3*delay` and the last
error is raised. -/
theorem withRetry_spec_witness :
    (withRetry (fun _ => (Except.error rateLimitErr : Except JsError Nat)) 3 7).result
        = Except.error rateLimitErr
      ∧ (withRetry (fun _ => (Except.error rateLimitErr : Except JsError Nat)) 3 7).calls = 3
      ∧ (withRetry (fun _ => (Except.error rateLimitErr : Except JsError Nat)) 3 7).sleeps
        = [7, 14, 21] :=
  (withRetry_spec (fun _ => (Except.error rateLimitErr : Except JsError Nat)) 7
    rateLimitErr rateLimitErr rateLimitErr rateLimitErr 0).1 rfl rfl rfl rfl rfl rfl

/-- C9: `canReviewPR` is false when the PR row is absent, when the
caller is the PR's author, and when the PR's repository has no project
link; when the PR exists with a different author and its repository is
linked to a project (and the membership table holds at most one row for
the caller in that project), it is true exactly when the caller holds
some role — any role — in that project. -/
theorem canReviewPR_spec (db : Db) (userId prId : String) :
    (db.pull_requests.filter (fun pr => pr.id == prId) = [] →
        canReviewPR db userId prId = false)
    ∧ (∀ pr, db.pull_requests.filter (fun p => p.id == prId) = [pr] →
        pr.author_id = userId → canReviewPR db userId prId = false)
    ∧ (∀ pr, db.pull_requests.filter (fun p => p.id == prId) = [pr] →
        db.project_repos.filter (fun r => r.repo_id == pr.repo_id) = [] →
        canReviewPR db userId prId = false)
    ∧ (∀ pr link, db.pull_requests.filter (fun p => p.id == prId) = [pr] →
        pr.author_id ≠ userId →
        db.project_repos.filter (fun r => r.repo_id == pr.repo_id) = [link] →
        (db.project_members.filter
            (fun m => m.user_id == userId && m.project_id == link.project_id)).length ≤ 1 →
        (canReviewPR db userId prId = true ↔
          ∃ m ∈ db.project_members,
            m.user_id = userId ∧ m.project_id = link.project_id)) := by
  refine ⟨?_, ?_, ?_, ?_⟩
  · intro h
    simp [canReviewPR, h, maybeSingle]
  · intro pr h hauthor
    simp [canReviewPR, h, maybeSingle, hauthor]
  · intro pr h hrepo
    by_cases hauthor : pr.author_id = userId
    · simp [canReviewPR, h, maybeSingle, hauthor]
    · simp [canReviewPR, h, maybeSingle, hrepo, hauthor]
  · intro pr link h hauthor hrepo hmem
    simp only [canReviewPR, h, maybeSingle, hrepo]
    rw [if_neg (by simpa using hauthor)]
    unfold getProjectRole
    cases hf : db.project_members.filter
        (fun m => m.user_id == userId && m.project_id == link.project_id) with
    | nil =>
      simp only [maybeSingle, Option.isSome_none]
      constructor
      · intro hfalse
        exact absurd hfalse (by simp)
      · rintro ⟨m, hm, hu, hp⟩
        have : m ∈ (db.project_members.filter
            (fun x => x.user_id == userId && x.project_id == link.project_id)) := by
          rw [List.mem_filter]
          exact ⟨hm, by simp [hu, hp]⟩
        rw [hf] at this
        simp at this
    | cons m rest =>
      cases rest with
      | nil =>
        simp only [maybeSingle, Option.isSome_some]
        have hm := List.mem_filter.1 (hf ▸ List.mem_cons_self m [])
        have hm2 := hm.2
        rw [Bool.and_eq_true, beq_iff_eq, beq_iff_eq] at hm2
        constructor
        · intro _
          exact ⟨m, hm.1, hm2.1, hm2.2⟩
        · intro _
          trivial
      | cons m2 rest2 =>
        rw [hf] at hmem
        simp at hmem

/-- Store for the C9 witness: one PR, its repo linked to project `p1`,
and a viewer member of `p1`. -/
def c9db : Db :=
  { emptyDb with
    pull_requests := [{ id := "pr1", author_id := "author1", repo_id := "repo1" }]
    project_repos := [{ repo_id := "repo1", project_id := "p1" }]
    project_members := [{ project_id := "p1", user_id := "reviewer1", role := "viewer" }] }

/-- Witness for C9: a non-author project member — of any role — may
review. -/
theorem canReviewPR_spec_witness : canReviewPR c9db "reviewer1" "pr1" = true :=
  ((canReviewPR_spec c9db "reviewer1" "pr1").2.2.2
      { id := "pr1", author_id := "author1", repo_id := "repo1" }
      { repo_id := "repo1", project_id := "p1" }
      (by decide) (by decide) (by decide) (by decide)).2
    ⟨{ project_id := "p1", user_id := "reviewer1", role := "viewer" }, by decide⟩

theorem findValidState_eq_none (db : Db) (s : String) (now : Nat)
    (h : ∀ r ∈ db.github_oauth_states, r.state = s → r.expires_at ≤ now) :
    findValidState db s now = none := by
  unfold findValidState
  have hf : db.github_oauth_states.filter
      (fun r => r.state == s && now < r.expires_at) = [] := by
    rw [List.filter_eq_nil_iff]
    intro r hr
    simp only [Bool.and_eq_true, beq_iff_eq, decide_eq_true_eq, not_and]
    intro hs
    exact Nat.not_lt.2 (h r hr hs)
  rw [hf]
  rfl

/-- C1: when every stored row for the presented `state` token has a
non-future expiry — which covers a token absent from the store, a token
already consumed (deleted) by a prior successful callback, and in
particular a token minted by `handleOAuthStart` more than 5 minutes
earlier — the callback handler fails closed: it redirects with
`Invalid or expired state`, leaves the store untouched, and never
reaches the token exchange.  The same holds for the public
`github-oauth-callback` body, whose error redirect recovers the project
from the (expired) state row when possible. -/
theorem oauthCallback_rejects_invalid_state (env : CallbackEnv) (db : Db) (s : String)
    (hcid : env.hasClientId = true) (hcs : env.hasClientSecret = true)
    (hru : env.hasRedirectUri = true)
    (hcode : strTruthy env.code = true)
    (hstate : env.state = some s) (hs : s ≠ "")
    (hinvalid : ∀ r ∈ db.github_oauth_states, r.state = s → r.expires_at ≤ env.now) :
    ((handleOAuthCallback env db).response
        = HttpResponse.redirect (RedirectTarget.errorPage "Invalid or expired state")
      ∧ (handleOAuthCallback env db).db = db
      ∧ CallbackAction.tokenExchange ∉ (handleOAuthCallback env db).actions)
    ∧ ((publicCallbackBody env db).response
          = callbackErrorRedirect db env.state "Invalid or expired state"
      ∧ (publicCallbackBody env db).db = db
      ∧ CallbackAction.tokenExchange ∉ (publicCallbackBody env db).actions) := by
  have hfind := findValidState_eq_none db s env.now hinvalid
  have hst : strTruthy env.state = true := by
    rw [hstate]
    simpa [strTruthy] using hs
  constructor
  · unfold handleOAuthCallback
    rw [hcid, hcs, hru, hcode, hst]
    simp only [Bool.and_true, Bool.and_self, Bool.not_true, Bool.false_eq_true,
      if_false, hstate, Option.getD_some]
    rw [hfind]
    refine ⟨rfl, rfl, by simp⟩
  · unfold publicCallbackBody
    rw [hcid, hcs, hru, hcode, hst]
    simp only [Bool.and_true, Bool.and_self, Bool.not_true, Bool.false_eq_true,
      if_false, hstate, Option.getD_some]
    rw [hfind]
    refine ⟨rfl, rfl, by simp⟩

/-- Environment of the C1 witness: a well-formed callback request whose
state token was minted at time 0 and presented at `now = 300000`
(exactly 5 minutes later, so `expires_at > now` fails). -/
def c1env : CallbackEnv :=
  { hasClientId := true, hasClientSecret := true, hasRedirectUri := true
    method := "GET", code := some "code1", state := some "s1"
    now := 300000
    tokenExchange := TokenExchangeResult.ok "gho_token" ["repo"]
    userFetch := UserFetchResult.ok 42 "octocat"
    updateError := none, insertError := none, newConnectionId := "conn-new"
    crash := false }

/-- Store of the C1 witness: the single state row minted by
`handleOAuthStart` at time 0. -/
def c1db : Db :=
  { emptyDb with github_oauth_states := [mkOAuthStateRow "s1" "p1" "u1" 0] }

/-- Witness for C1: the 5-minute-old token is rejected even though the
request is otherwise well-formed. -/
theorem oauthCallback_rejects_invalid_state_witness :
    (handleOAuthCallback c1env c1db).response
        = HttpResponse.redirect (RedirectTarget.errorPage "Invalid or expired state")
      ∧ (handleOAuthCallback c1env c1db).db = c1db
      ∧ CallbackAction.tokenExchange ∉ (handleOAuthCallback c1env c1db).actions :=
  (oauthCallback_rejects_invalid_state c1env c1db "s1" rfl rfl rfl rfl rfl
    (by decide) (by decide)).1

/-- Store with one valid, unexpired state row (shared by the C2
counterexample and witness). -/
def c2db : Db :=
  { emptyDb with github_oauth_states :=
      [{ state := "s1", project_id := "p1", user_id := "u1", expires_at := 1000 }] }

/-- A callback request whose state validation succeeds but whose token
exchange fails with a non-OK HTTP response. -/
def c2failEnv : CallbackEnv :=
  { hasClientId := true, hasClientSecret := true, hasRedirectUri := true
    method := "GET", code := some "code1", state := some "s1"
    now := 0
    tokenExchange := TokenExchangeResult.httpError "bad_verification_code"
    userFetch := UserFetchResult.httpError
    updateError := none, insertError := none, newConnectionId := "conn-new"
    crash := false }

/-- Counterexample to C2: a callback execution that passes state
validation but whose code-for-token exchange fails returns the error
redirect with the consented state row still in the store — the state is
not deleted "unconditionally after success or failure". -/
theorem oauth_state_retained_on_failure :
    (findValidState c2db "s1" c2failEnv.now).isSome = true
    ∧ (handleOAuthCallback c2failEnv c2db).response
        = HttpResponse.redirect (RedirectTarget.errorPage "Failed to exchange code for token")
    ∧ (handleOAuthCallback c2failEnv c2db).db.github_oauth_states
        = c2db.github_oauth_states
    ∧ c2db.github_oauth_states ≠ [] := by decide

theorem mem_finishOAuthCallback_states (db : Db) (sp pid : String)
    (acts : List CallbackAction) (r : OAuthStateRow)
    (hr : r ∈ (finishOAuthCallback db sp pid acts).db.github_oauth_states) :
    r.state ≠ sp := by
  unfold finishOAuthCallback at hr
  dsimp only at hr
  have := (List.mem_filter.1 hr).2
  simpa using this

theorem mem_finishPublicCallback_states (db : Db) (sp pid : String)
    (acts : List CallbackAction) (r : OAuthStateRow)
    (hr : r ∈ (finishPublicCallback db sp pid acts).db.github_oauth_states) :
    r.state ≠ sp := by
  unfold finishPublicCallback at hr
  dsimp only at hr
  have := (List.mem_filter.1 hr).2
  simpa using this

theorem callbackErrorRedirect_ne_connected (db : Db) (sp : Option String)
    (msg p : String) :
    callbackErrorRedirect db sp msg
      ≠ HttpResponse.redirect (RedirectTarget.projectReposConnected p) := by
  unfold callbackErrorRedirect
  split <;> simp

/-- C2 (amended): the consented state row is deleted exactly on the
success path — in both callback handlers, a run that ends in the
success redirect leaves no row for the presented token in the store;
runs that fail after state validation (exchange, identity fetch or
persistence) return with the store untouched, as the separate
counterexample shows on a concrete run. -/
theorem oauth_state_deleted_on_success (env : CallbackEnv) (db : Db) (s p : String)
    (hstate : env.state = some s) :
    ((handleOAuthCallback env db).response
        = HttpResponse.redirect (RedirectTarget.selectReposConnected p) →
      ∀ r ∈ (handleOAuthCallback env db).db.github_oauth_states, r.state ≠ s)
    ∧ ((publicCallbackBody env db).response
        = HttpResponse.redirect (RedirectTarget.projectReposConnected p) →
      ∀ r ∈ (publicCallbackBody env db).db.github_oauth_states, r.state ≠ s) := by
  constructor
  · unfold handleOAuthCallback
    rw [hstate]
    dsimp only [Option.getD_some]
    repeat' split
    all_goals intro hresp
    all_goals first
      | (intro r hr; exact mem_finishOAuthCallback_states _ _ _ _ r hr)
      | (exfalso; simp at hresp)
  · unfold publicCallbackBody
    rw [hstate]
    dsimp only [Option.getD_some]
    repeat' split
    all_goals intro hresp
    all_goals first
      | (intro r hr; exact mem_finishPublicCallback_states _ _ _ _ r hr)
      | (exact absurd hresp (callbackErrorRedirect_ne_connected _ _ _ _))
      | (exfalso; simp at hresp)

/-- The C2 witness environment: a fully successful callback. -/
def c2okEnv : CallbackEnv :=
  { hasClientId := true, hasClientSecret := true, hasRedirectUri := true
    method := "GET", code := some "code1", state := some "s1"
    now := 0
    tokenExchange := TokenExchangeResult.ok "gho_token" ["repo", "read:org"]
    userFetch := UserFetchResult.ok 42 "octocat"
    updateError := none, insertError := none, newConnectionId := "conn-new"
    crash := false }

/-- Witness for the amended C2: after the fully successful callback run
the state table, which held exactly the consumed `s1` row, is empty. -/
theorem oauth_state_deleted_on_success_witness :
    (handleOAuthCallback c2okEnv c2db).db.github_oauth_states = [] := by
  have H := (oauth_state_deleted_on_success c2okEnv c2db "s1" "p1" rfl).1 (by decide)
  revert H
  decide

theorem callbackErrorRedirect_is_redirect (db : Db) (sp : Option String) (msg : String) :
    ∃ t, callbackErrorRedirect db sp msg = HttpResponse.redirect t := by
  unfold callbackErrorRedirect
  split <;> exact ⟨_, rfl⟩

theorem publicCallbackBody_redirects (env : CallbackEnv) (db : Db) :
    ∃ t, (publicCallbackBody env db).response = HttpResponse.redirect t := by
  unfold publicCallbackBody
  dsimp only
  repeat' split
  all_goals first
    | (exact callbackErrorRedirect_is_redirect _ _ _)
    | (exact ⟨_, rfl⟩)

/-- A non-GET request to the public callback endpoint (shared
configuration with a well-formed query). -/
def c7postEnv : CallbackEnv :=
  { hasClientId := true, hasClientSecret := true, hasRedirectUri := true
    method := "POST", code := some "code1", state := some "s1"
    now := 0
    tokenExchange := TokenExchangeResult.ok "gho_token" ["repo"]
    userFetch := UserFetchResult.ok 42 "octocat"
    updateError := none, insertError := none, newConnectionId := "conn-new"
    crash := false }

/-- Counterexample to C7: a POST request to the callback endpoint is
answered with a 405 JSON error body, not with a 302 redirect. -/
theorem publicCallback_post_not_redirect :
    (publicCallbackServe c7postEnv emptyDb).response
        = HttpResponse.json 405 "Method not allowed"
    ∧ (publicCallbackServe c7postEnv emptyDb).response.statusCode ≠ 302 := by decide

/-- C7 (amended): every GET request to the public callback endpoint —
missing code or state, invalid or expired state, failed exchange,
failed identity fetch, persistence error, or an internal exception —
is answered with a 302 redirect; the OPTIONS preflight is answered with
an empty CORS response and any other method with a 405 JSON error. -/
theorem publicCallback_get_always_redirects (env : CallbackEnv) (db : Db)
    (h : env.method = "GET") :
    ∃ t, (publicCallbackServe env db).response = HttpResponse.redirect t
      ∧ (publicCallbackServe env db).response.statusCode = 302 := by
  have hr : ∃ t, (publicCallbackServe env db).response = HttpResponse.redirect t := by
    unfold publicCallbackServe
    rw [h]
    simp only [String.reduceBEq, Bool.false_eq_true, if_false, bne_self_eq_false]
    split
    · exact callbackErrorRedirect_is_redirect _ _ _
    · exact publicCallbackBody_redirects _ _
  obtain ⟨t, ht⟩ := hr
  exact ⟨t, ht, by rw [ht]; rfl⟩

/-- A GET request that raises an internal exception inside the handler
(`crash`), exercising the `catch` path of the C7 witness. -/
def c7getEnv : CallbackEnv :=
  { c7postEnv with method := "GET", crash := true }

/-- Witness for the amended C7: even an internal exception on a GET
request yields a 302 redirect. -/
theorem publicCallback_get_always_redirects_witness :
    ∃ t, (publicCallbackServe c7getEnv emptyDb).response = HttpResponse.redirect t
      ∧ (publicCallbackServe c7getEnv emptyDb).response.statusCode = 302 :=
  publicCallback_get_always_redirects c7getEnv emptyDb rfl

/-- An active OAuth connection of project `p1` (C8 store). -/
def c8conn : ConnectionRow :=
  { id := "c1", project_id := "p1", provider := "github", owner_type := "user"
    owner_name := "octocat", github_user_id := some "42", username := some "octocat"
    access_token_encrypted := some "gho_token", scopes := ["repo"], status := "active"
    installation_id := none, secrets_ref := none, created_by := some "u1"
    error_message := none, updated_at := none, last_sync_at := none }

/-- A selected repository referencing connection `c1` (C8 store). -/
def c8repo : RepoRow :=
  { id := "r1", connection_id := "c1", provider_repo_id := "101"
    full_name := "octocat/app", default_branch := "main", visibility := "private"
    description := none, url := "https://github.com/octocat/app"
    sync_status := "synced", selected := true, last_synced_at := none }

/-- C8 store: an admin of `p1`, the connection, and its selected repo. -/
def c8db : Db :=
  { emptyDb with
    project_members := [{ project_id := "p1", user_id := "u1", role := "admin" }]
    provider_connections := [c8conn]
    repos := [c8repo] }

/-- Counterexample to C8: the `DELETE /connections/:id` path sets the
connection status to `revoked` but leaves the referencing repository's
`selected` flag set — it does not clear `selected` as the claim states
for every revocation path. -/
theorem deleteConnection_keeps_selected :
    ((handleDeleteConnection { updateError := false } "c1" "u1" c8db).2.provider_connections.map
        (fun c => c.status)) = ["revoked"]
    ∧ ((handleDeleteConnection { updateError := false } "c1" "u1" c8db).2.repos.map
        (fun r => r.selected)) = [true] := by decide

/-- C8 (amended): the `POST /connection/revoke` handler sets the
connection's status to `revoked` and clears `selected` on every
repository referencing it; the `DELETE /connections/:id` handler only
sets the status to `revoked` and leaves the `repos` table
untouched. -/
theorem revoke_connection_spec (env : RevokeEnv) (denv : DeleteEnv)
    (userId connectionId p : String) (db : Db) (conn conn2 : ConnectionRow) :
    ((env.projectId = some p → p ≠ "" →
      canConnectGit db userId p = true →
      maybeSingle (db.provider_connections.filter
        (fun c => c.project_id == p && c.provider == "github")) = some conn →
      env.updateError = false →
      (∀ c ∈ (handleRevokeConnection env userId db).2.provider_connections,
        c.id = conn.id → c.status = "revoked")
      ∧ (∀ r ∈ (handleRevokeConnection env userId db).2.repos,
        r.connection_id = conn.id → r.selected = false))
    ∧ (maybeSingle (db.provider_connections.filter
        (fun c => c.id == connectionId)) = some conn2 →
      canConnectGit db userId conn2.project_id = true →
      denv.updateError = false →
      (∀ c ∈ (handleDeleteConnection denv connectionId userId db).2.provider_connections,
        c.id = connectionId → c.status = "revoked")
      ∧ (handleDeleteConnection denv connectionId userId db).2.repos = db.repos)) := by
  constructor
  · intro hp hpne hperm hconn hupd
    have hpt : strTruthy (some p) = true := by simpa [strTruthy] using hpne
    unfold handleRevokeConnection
    rw [hp, hpt]
    simp only [Option.getD_some, Bool.not_true, Bool.false_eq_true, if_false,
      hperm, hconn, hupd]
    constructor
    · intro c hc hid
      rcases List.mem_map.1 hc with ⟨a, _, rfl⟩
      by_cases ha : (a.id == conn.id) = true
      · simp [ha]
      · rw [if_neg ha] at hid ⊢
        exact absurd (by simp [hid]) ha
    · intro r hr hid
      rcases List.mem_map.1 hr with ⟨a, _, rfl⟩
      by_cases ha : (a.connection_id == conn.id) = true
      · simp [ha]
      · rw [if_neg ha] at hid ⊢
        exact absurd (by simp [hid]) ha
  · intro hconn hperm hupd
    unfold handleDeleteConnection
    rw [hconn]
    simp only [hperm, hupd, Bool.not_true, Bool.false_eq_true, if_false]
    constructor
    · intro c hc hid
      rcases List.mem_map.1 hc with ⟨a, _, rfl⟩
      by_cases ha : (a.id == connectionId) = true
      · simp [ha]
      · rw [if_neg ha] at hid ⊢
        exact absurd (by simp [hid]) ha
    · trivial

/-- Witness for the amended C8: on the concrete store, the OAuth revoke
path marks the connection revoked and clears the repository's
`selected` flag. -/
theorem revoke_connection_spec_witness :
    (∀ c ∈ (handleRevokeConnection { projectId := some "p1", updateError := false }
        "u1" c8db).2.provider_connections, c.id = c8conn.id → c.status = "revoked")
    ∧ (∀ r ∈ (handleRevokeConnection { projectId := some "p1", updateError := false }
        "u1" c8db).2.repos, r.connection_id = c8conn.id → r.selected = false) :=
  (revoke_connection_spec { projectId := some "p1", updateError := false }
    { updateError := false } "u1" "c1" "p1" c8db c8conn c8conn).1
    rfl (by decide) (by decide) (by decide) rfl

/-- Number of connection rows stored for a (project, provider) pair. -/
def countL (l : List ConnectionRow) (p prov : String) : Nat :=
  (l.filter (fun c => c.project_id == p && c.provider == prov)).length

/-- Number of connection rows of a store for a (project, provider). -/
def countConnections (db : Db) (p prov : String) : Nat :=
  countL db.provider_connections p prov

theorem maybeSingle_eq_none_length {α : Type} {l : List α}
    (h : maybeSingle l = none) : l.length ≠ 1 := by
  cases l with
  | nil => simp
  | cons x xs =>
    cases xs with
    | nil => simp [maybeSingle] at h
    | cons y ys => simp

theorem countL_map (l : List ConnectionRow) (f : ConnectionRow → ConnectionRow)
    (hf : ∀ c, (f c).project_id = c.project_id ∧ (f c).provider = c.provider)
    (p prov : String) : countL (l.map f) p prov = countL l p prov := by
  induction l with
  | nil => rfl
  | cons c cs ih =>
    unfold countL at ih ⊢
    simp only [List.map_cons, List.filter_cons, (hf c).1, (hf c).2]
    split
    · simp [ih]
    · exact ih

theorem countL_append_le (l : List ConnectionRow) (row : ConnectionRow)
    (p prov : String)
    (hnone : maybeSingle (l.filter
      (fun c => c.project_id == row.project_id && c.provider == row.provider)) = none)
    (h : countL l p prov ≤ 1) : countL (l ++ [row]) p prov ≤ 1 := by
  unfold countL at h ⊢
  rw [List.filter_append, List.length_append]
  by_cases hq : (row.project_id == p && row.provider == prov) = true
  · have hpq : p = row.project_id ∧ prov = row.provider := by
      rw [Bool.and_eq_true, beq_iff_eq, beq_iff_eq] at hq
      exact ⟨hq.1.symm, hq.2.symm⟩
    obtain ⟨rfl, rfl⟩ := hpq
    have hne := maybeSingle_eq_none_length hnone
    have hzero : (l.filter
        (fun c => c.project_id == row.project_id && c.provider == row.provider)).length = 0 := by
      omega
    rw [hzero]
    simp [List.filter, hq]
  · simp only [List.filter, hq]
    simpa using h

theorem countConnections_finish (db : Db) (sp pid : String)
    (acts : List CallbackAction) (p prov : String) :
    countConnections (finishOAuthCallback db sp pid acts).db p prov
      = countConnections db p prov := rfl

theorem countConnections_finishPublic (db : Db) (sp pid : String)
    (acts : List CallbackAction) (p prov : String) :
    countConnections (finishPublicCallback db sp pid acts).db p prov
      = countConnections db p prov := rfl

/-- C5 (amended): the OAuth callback flows — `handleOAuthCallback` and
the public callback body — persist the connection by
upsert-by-(project, provider): they update the single existing row in
place or insert one row only when none exists, so a store holding at
most one connection per (project, provider) still holds at most one
afterwards.  The GitHub App installation callback does not: it inserts
unconditionally and can create a second row for the same pair, as the
separate counterexample shows on a concrete store. -/
theorem oauth_connection_upsert_unique (env : CallbackEnv) (db : Db) (p prov : String) :
    (countConnections db p prov ≤ 1 →
      countConnections (handleOAuthCallback env db).db p prov ≤ 1)
    ∧ (countConnections db p prov ≤ 1 →
      countConnections (publicCallbackBody env db).db p prov ≤ 1) := by
  constructor
  · intro h
    unfold handleOAuthCallback
    dsimp only
    repeat' split
    all_goals first
      | exact h
      | (rw [countConnections_finish]
         exact le_of_eq_of_le
           (countL_map db.provider_connections _
             (fun c => by constructor <;> (split <;> rfl)) p prov) h)
      | (rw [countConnections_finish]
         exact countL_append_le db.provider_connections _ p prov (by assumption) h)
  · intro h
    unfold publicCallbackBody
    dsimp only
    repeat' split
    all_goals first
      | exact h
      | (rw [countConnections_finishPublic]
         exact le_of_eq_of_le
           (countL_map db.provider_connections _
             (fun c => by constructor <;> (split <;> rfl)) p prov) h)
      | (rw [countConnections_finishPublic]
         exact countL_append_le db.provider_connections _ p prov (by assumption) h)

/-- The pre-existing active OAuth connection of project `p1` used by
the C5 scenarios. -/
def c5conn0 : ConnectionRow :=
  { id := "c0", project_id := "p1", provider := "github", owner_type := "user"
    owner_name := "octocat", github_user_id := some "42", username := some "octocat"
    access_token_encrypted := some "gho_token", scopes := ["repo"], status := "active"
    installation_id := some "111", secrets_ref := none, created_by := some "u1"
    error_message := none, updated_at := none, last_sync_at := none }

/-- C5 store: an admin of `p1` and one existing (p1, github)
connection. -/
def c5db : Db :=
  { emptyDb with
    project_members := [{ project_id := "p1", user_id := "u1", role := "admin" }]
    provider_connections := [c5conn0] }

/-- A GitHub App installation callback for `p1` while a (p1, github)
connection already exists. -/
def c5appEnv : AppCallbackEnv :=
  { projectId := some "p1", installationId := some "222", provider := none
    ownerType := none, ownerName := none
    installationFetch := InstallationFetchResult.ok (some "User") (some "octocat")
    insertError := false, newConnectionId := "c2"
    sync := { fetch := SyncFetchResult.ok [], repoUpsertErrors := [], now := 5 } }

/-- Counterexample to C5: the GitHub App installation callback inserts
a new connection row although one already exists for the same
(project, provider), leaving two rows for (p1, github). -/
theorem appCallback_duplicates_connection :
    countConnections c5db "p1" "github" = 1
    ∧ (handleCallback c5appEnv "u1" c5db).1 = HttpResponse.json 200 "connection"
    ∧ countConnections (handleCallback c5appEnv "u1" c5db).2 "p1" "github" = 2 := by
  decide

/-- C5 witness store: the existing connection plus a valid state row. -/
def c5oauthDb : Db :=
  { c5db with github_oauth_states :=
      [{ state := "s5", project_id := "p1", user_id := "u1", expires_at := 1000 }] }

/-- A fully successful OAuth callback against `c5oauthDb`. -/
def c5okEnv : CallbackEnv :=
  { hasClientId := true, hasClientSecret := true, hasRedirectUri := true
    method := "GET", code := some "code5", state := some "s5"
    now := 0
    tokenExchange := TokenExchangeResult.ok "gho_token2" ["repo"]
    userFetch := UserFetchResult.ok 42 "octocat"
    updateError := none, insertError := none, newConnectionId := "c9"
    crash := false }

/-- Witness for the amended C5: re-running the OAuth callback against a
store that already holds the (p1, github) connection still leaves at
most one row for the pair. -/
theorem oauth_connection_upsert_unique_witness :
    countConnections (handleOAuthCallback c5okEnv c5oauthDb).db "p1" "github" ≤ 1 :=
  (oauth_connection_upsert_unique c5okEnv c5oauthDb "p1" "github").1 (by decide)

/-! ## §11 Lemmas for auto-link idempotency -/

theorem linkQueryMatches_mkAutoLink (md : AutoLinkMetadata) (tid et eid : String) :
    linkQueryMatches md tid (mkAutoLink tid et eid md) = true := by
  unfold linkQueryMatches mkAutoLink
  cases hb : strTruthy md.branchName <;> cases hc : strTruthy md.commitSha <;>
    cases hp : natTruthy md.prNumber <;> simp [hb, hc, hp]

theorem linkQueryMatches_mkAutoLink_ne (md : AutoLinkMetadata) (tid tid' et eid : String)
    (h : tid ≠ tid') : linkQueryMatches md tid' (mkAutoLink tid et eid md) = false := by
  unfold linkQueryMatches mkAutoLink
  simp [h]

theorem processTarefaLink_skip (et eid : String) (md : AutoLinkMetadata)
    (links : List LinkRow) (tid : String)
    (h : (links.filter (linkQueryMatches md tid)).length = 1) :
    processTarefaLink et eid md links tid = links := by
  obtain ⟨x, hx⟩ := List.length_eq_one.1 h
  unfold processTarefaLink
  rw [hx]
  rfl

theorem processTarefaLink_insert (et eid : String) (md : AutoLinkMetadata)
    (links : List LinkRow) (tid : String)
    (h : (links.filter (linkQueryMatches md tid)).length = 0) :
    processTarefaLink et eid md links tid = links ++ [mkAutoLink tid et eid md] := by
  have hx : links.filter (linkQueryMatches md tid) = [] := List.length_eq_zero.1 h
  unfold processTarefaLink
  rw [hx]
  rfl

theorem processTarefaLink_filter_other (et eid : String) (md : AutoLinkMetadata)
    (links : List LinkRow) (tid tid' : String) (h : tid ≠ tid') :
    (processTarefaLink et eid md links tid).filter (linkQueryMatches md tid')
      = links.filter (linkQueryMatches md tid') := by
  unfold processTarefaLink
  cases hm : maybeSingle (links.filter (linkQueryMatches md tid)) with
  | some x => rfl
  | none =>
    dsimp only
    rw [List.filter_append]
    simp [linkQueryMatches_mkAutoLink_ne md tid tid' et eid h]

theorem processTarefaLink_count_self (et eid : String) (md : AutoLinkMetadata)
    (links : List LinkRow) (tid : String)
    (h : (links.filter (linkQueryMatches md tid)).length ≤ 1) :
    ((processTarefaLink et eid md links tid).filter (linkQueryMatches md tid)).length = 1 := by
  rcases Nat.le_one_iff_eq_zero_or_eq_one.1 h with h0 | h1
  · rw [processTarefaLink_insert et eid md links tid h0, List.filter_append]
    simp [linkQueryMatches_mkAutoLink, List.length_eq_zero.1 h0]
  · rw [processTarefaLink_skip et eid md links tid h1]
    exact h1

theorem processTarefaLink_count_le (et eid : String) (md : AutoLinkMetadata)
    (links : List LinkRow) (tid tid' : String)
    (h : (links.filter (linkQueryMatches md tid')).length ≤ 1)
    (hself : (links.filter (linkQueryMatches md tid)).length ≤ 1) :
    ((processTarefaLink et eid md links tid).filter (linkQueryMatches md tid')).length ≤ 1 := by
  by_cases he : tid = tid'
  · subst he
    rw [processTarefaLink_count_self et eid md links tid hself]
  · rw [processTarefaLink_filter_other et eid md links tid tid' he]
    exact h

theorem processTarefaLink_count_keep (et eid : String) (md : AutoLinkMetadata)
    (links : List LinkRow) (tid tid' : String)
    (h : (links.filter (linkQueryMatches md tid')).length = 1) :
    ((processTarefaLink et eid md links tid).filter (linkQueryMatches md tid')).length = 1 := by
  by_cases he : tid = tid'
  · subst he
    exact processTarefaLink_count_self et eid md links tid (le_of_eq h)
  · rw [processTarefaLink_filter_other et eid md links tid tid' he]
    exact h

theorem foldProcess_count_le (et eid : String) (md : AutoLinkMetadata)
    (ts : List TarefaRow) (links : List LinkRow)
    (h : ∀ tid, (links.filter (linkQueryMatches md tid)).length ≤ 1) :
    ∀ tid, ((ts.foldl (fun ls t => processTarefaLink et eid md ls t.id) links).filter
      (linkQueryMatches md tid)).length ≤ 1 := by
  induction ts generalizing links with
  | nil => exact h
  | cons t ts' ih =>
    exact ih _ (fun tid => processTarefaLink_count_le et eid md links t.id tid
      (h tid) (h t.id))

theorem foldProcess_count_keep (et eid : String) (md : AutoLinkMetadata)
    (ts : List TarefaRow) (links : List LinkRow) (tid : String)
    (h : (links.filter (linkQueryMatches md tid)).length = 1) :
    ((ts.foldl (fun ls t => processTarefaLink et eid md ls t.id) links).filter
      (linkQueryMatches md tid)).length = 1 := by
  induction ts generalizing links with
  | nil => exact h
  | cons t ts' ih =>
    exact ih _ (processTarefaLink_count_keep et eid md links t.id tid h)

theorem foldProcess_count_mem (et eid : String) (md : AutoLinkMetadata)
    (ts : List TarefaRow) (links : List LinkRow)
    (h : ∀ tid, (links.filter (linkQueryMatches md tid)).length ≤ 1) :
    ∀ t ∈ ts, ((ts.foldl (fun ls t => processTarefaLink et eid md ls t.id) links).filter
      (linkQueryMatches md t.id)).length = 1 := by
  induction ts generalizing links with
  | nil => intro t ht; simp at ht
  | cons t0 ts' ih =>
    intro t ht
    rcases List.mem_cons.1 ht with rfl | hmem
    · exact foldProcess_count_keep et eid md ts' _ t.id
        (processTarefaLink_count_self et eid md links t.id (h t.id))
    · exact ih _ (fun tid => processTarefaLink_count_le et eid md links t0.id tid
        (h tid) (h t0.id)) t hmem

theorem foldProcess_fixed (et eid : String) (md : AutoLinkMetadata)
    (ts : List TarefaRow) (links : List LinkRow)
    (h : ∀ t ∈ ts, (links.filter (linkQueryMatches md t.id)).length = 1) :
    ts.foldl (fun ls t => processTarefaLink et eid md ls t.id) links = links := by
  induction ts with
  | nil => rfl
  | cons t0 ts' ih =>
    have hstep := processTarefaLink_skip et eid md links t0.id
      (h t0 (List.mem_cons_self _ _))
    simp only [List.foldl_cons, hstep]
    exact ih (fun t ht => h t (List.mem_cons_of_mem _ ht))

theorem createAutoLinks_keys_empty (tarefaKeys : List String)
    (projectId repoId entityType entityId : String) (md : AutoLinkMetadata) (db : Db)
    (hk : tarefaKeys.isEmpty = true) :
    createAutoLinks tarefaKeys projectId repoId entityType entityId md db = db := by
  unfold createAutoLinks
  rw [hk]
  rfl

theorem createAutoLinks_no_tarefas (tarefaKeys : List String)
    (projectId repoId entityType entityId : String) (md : AutoLinkMetadata) (db : Db)
    (hk : tarefaKeys.isEmpty = false)
    (ht : (List.filter (fun t => t.project_id == projectId && tarefaKeys.contains t.key)
        db.tarefas).isEmpty = true) :
    createAutoLinks tarefaKeys projectId repoId entityType entityId md db = db := by
  unfold createAutoLinks
  rw [hk]
  dsimp only
  rw [ht]
  rfl

theorem createAutoLinks_eq (tarefaKeys : List String)
    (projectId repoId entityType entityId : String) (md : AutoLinkMetadata) (db : Db)
    (links : List LinkRow)
    (hk : tarefaKeys.isEmpty = false)
    (ht : (List.filter (fun t => t.project_id == projectId && tarefaKeys.contains t.key)
        db.tarefas).isEmpty = false) :
    createAutoLinks tarefaKeys projectId repoId entityType entityId md
        { db with tarefa_git_links := links }
      = { db with
          tarefa_git_links :=
            List.foldl (fun ls t => processTarefaLink entityType entityId md ls t.id)
              links
              (List.filter (fun t => t.project_id == projectId && tarefaKeys.contains t.key)
                db.tarefas) } := by
  unfold createAutoLinks
  rw [hk]
  dsimp only
  rw [ht]
  rfl

set_option maxHeartbeats 2000000 in
/-- C4: auto-link association creation is idempotent.  On a store that
holds at most one link row per deduplication tuple (the match query of
`createAutoLinks`), running `createAutoLinks` twice with identical
arguments equals running it once; after one run, each resolved tarefa
has exactly one stored row for the tuple; and the `handleCreateLink`
upsert keyed on (tarefa, provider, branch, commit_sha, pr_number) is
unconditionally idempotent. -/
theorem autolink_creation_idempotent (tarefaKeys : List String)
    (projectId repoId entityType entityId : String) (md : AutoLinkMetadata) (db : Db) :
    ((∀ tid, (db.tarefa_git_links.filter (linkQueryMatches md tid)).length ≤ 1) →
      createAutoLinks tarefaKeys projectId repoId entityType entityId md
          (createAutoLinks tarefaKeys projectId repoId entityType entityId md db)
        = createAutoLinks tarefaKeys projectId repoId entityType entityId md db)
    ∧ ((∀ tid, (db.tarefa_git_links.filter (linkQueryMatches md tid)).length ≤ 1) →
      ∀ t ∈ db.tarefas, t.project_id = projectId → tarefaKeys.contains t.key = true →
        (((createAutoLinks tarefaKeys projectId repoId entityType entityId md db).tarefa_git_links).filter (linkQueryMatches md t.id)).length = 1)
    ∧ (∀ rows row, upsertLink (upsertLink rows row) row = upsertLink rows row) := by
  refine ⟨?_, ?_, ?_⟩
  · intro h
    cases hk : tarefaKeys.isEmpty with
    | true =>
      rw [createAutoLinks_keys_empty tarefaKeys projectId repoId entityType entityId md db hk,
        createAutoLinks_keys_empty tarefaKeys projectId repoId entityType entityId md db hk]
    | false =>
      cases ht : (List.filter (fun t => t.project_id == projectId
          && tarefaKeys.contains t.key) db.tarefas).isEmpty with
      | true =>
        rw [createAutoLinks_no_tarefas tarefaKeys projectId repoId entityType entityId md db hk ht,
          createAutoLinks_no_tarefas tarefaKeys projectId repoId entityType entityId md db hk ht]
      | false =>
        have h1 : createAutoLinks tarefaKeys projectId repoId entityType entityId md db
            = { db with
                tarefa_git_links :=
                  List.foldl (fun ls t => processTarefaLink entityType entityId md ls t.id)
                    db.tarefa_git_links
                    (List.filter (fun t => t.project_id == projectId
                        && tarefaKeys.contains t.key) db.tarefas) } :=
          createAutoLinks_eq tarefaKeys projectId repoId entityType entityId md db
            db.tarefa_git_links hk ht
        have h2 := createAutoLinks_eq tarefaKeys projectId repoId entityType entityId md db
          (List.foldl (fun ls t => processTarefaLink entityType entityId md ls t.id)
            db.tarefa_git_links
            (List.filter (fun t => t.project_id == projectId
                && tarefaKeys.contains t.key) db.tarefas)) hk ht
        have hfix := foldProcess_fixed entityType entityId md
          (List.filter (fun t => t.project_id == projectId
              && tarefaKeys.contains t.key) db.tarefas)
          (List.foldl (fun ls t => processTarefaLink entityType entityId md ls t.id)
            db.tarefa_git_links
            (List.filter (fun t => t.project_id == projectId
                && tarefaKeys.contains t.key) db.tarefas))
          (foldProcess_count_mem entityType entityId md _ _ h)
        rw [h1, h2, hfix, ← h1]
  · intro h t htmem htproj htkey
    have hk : tarefaKeys.isEmpty = false := by
      cases hke : tarefaKeys with
      | nil => rw [hke] at htkey; simp at htkey
      | cons a l => simp
    have htkey' : t.key ∈ tarefaKeys := by simpa using htkey
    have htmem' : t ∈ List.filter (fun t => t.project_id == projectId
        && tarefaKeys.contains t.key) db.tarefas := by
      rw [List.mem_filter]
      exact ⟨htmem, by simp [htproj, htkey']⟩
    have ht : (List.filter (fun t => t.project_id == projectId
        && tarefaKeys.contains t.key) db.tarefas).isEmpty = false := by
      cases hfe : List.filter (fun t => t.project_id == projectId
          && tarefaKeys.contains t.key) db.tarefas with
      | nil => rw [hfe] at htmem'; simp at htmem'
      | cons a l => simp
    have h1 : createAutoLinks tarefaKeys projectId repoId entityType entityId md db
        = { db with
            tarefa_git_links :=
              List.foldl (fun ls t => processTarefaLink entityType entityId md ls t.id)
                db.tarefa_git_links
                (List.filter (fun t => t.project_id == projectId
                    && tarefaKeys.contains t.key) db.tarefas) } :=
      createAutoLinks_eq tarefaKeys projectId repoId entityType entityId md db
        db.tarefa_git_links hk ht
    rw [h1]
    exact foldProcess_count_mem entityType entityId md _ _ h t htmem'
  · intro rows row
    unfold upsertLink
    by_cases h : rows.any (fun r => linkKeyTuple r == linkKeyTuple row) = true
    · rw [if_pos h]
      have hself : (linkKeyTuple row == linkKeyTuple row) = true := by simp
      have hany2 : (rows.map (fun r =>
          if linkKeyTuple r == linkKeyTuple row then row else r)).any
          (fun r => linkKeyTuple r == linkKeyTuple row) = true := by
        rcases List.any_eq_true.1 h with ⟨r, hr, hpr⟩
        refine List.any_eq_true.2 ⟨row, ?_, hself⟩
        refine List.mem_map.2 ⟨r, hr, ?_⟩
        rw [if_pos hpr]
      rw [if_pos hany2, List.map_map]
      refine List.map_congr_left ?_
      intro r _
      by_cases hpr : (linkKeyTuple r == linkKeyTuple row) = true
      · simp [Function.comp, hpr, hself]
      · simp [Function.comp, hpr]
    · rw [if_neg h]
      have hself : (linkKeyTuple row == linkKeyTuple row) = true := by simp
      have hany2 : (rows ++ [row]).any
          (fun r => linkKeyTuple r == linkKeyTuple row) = true := by
        refine List.any_eq_true.2 ⟨row, ?_, hself⟩
        simp
      rw [if_pos hany2, List.map_append]
      have hfalse : rows.any (fun r => linkKeyTuple r == linkKeyTuple row) = false := by
        simpa using h
      have hall : ∀ r ∈ rows, (linkKeyTuple r == linkKeyTuple row) = false := by
        intro r hr
        have := List.any_eq_false.1 hfalse r hr
        simpa using this
      have hrows : rows.map (fun r =>
          if linkKeyTuple r == linkKeyTuple row then row else r) = rows := by
        calc rows.map (fun r => if linkKeyTuple r == linkKeyTuple row then row else r)
            = rows.map id := by
              refine List.map_congr_left ?_
              intro r hr
              rw [if_neg (by simp [hall r hr])]
              rfl
          _ = rows := List.map_id rows
      rw [hrows]
      simp [hself]

/-- Tarefa `TSK-1` of project `p1` (C4 witness). -/
def c4tarefa : TarefaRow := { id := "t1", key := "TSK-1", project_id := "p1" }

/-- C4 witness store: the tarefa and no links. -/
def c4db : Db := { emptyDb with tarefas := [c4tarefa] }

/-- C4 witness metadata: the claim's example tuple
(branch=null, commit=null, pr=42). -/
def c4md : AutoLinkMetadata :=
  { branchName := none, commitSha := none, prNumber := some 42
    detectedFrom := some "merge TSK-1" }

/-- Witness for C4: with tuple (task, github, branch=null, commit=null,
pr=42), a second identical run changes nothing, and the run leaves
exactly one row for the tuple. -/
theorem autolink_creation_idempotent_witness :
    (createAutoLinks ["TSK-1"] "p1" "r1" "pull_request" "e1" c4md
        (createAutoLinks ["TSK-1"] "p1" "r1" "pull_request" "e1" c4md c4db)
      = createAutoLinks ["TSK-1"] "p1" "r1" "pull_request" "e1" c4md c4db)
    ∧ (((createAutoLinks ["TSK-1"] "p1" "r1" "pull_request" "e1" c4md c4db).tarefa_git_links).filter (linkQueryMatches c4md c4tarefa.id)).length = 1 :=
  ⟨(autolink_creation_idempotent ["TSK-1"] "p1" "r1" "pull_request" "e1" c4md c4db).1
      (fun tid => by simp [c4db, emptyDb]),
    (autolink_creation_idempotent ["TSK-1"] "p1" "r1" "pull_request" "e1" c4md c4db).2.1
      (fun tid => by simp [c4db, emptyDb]) c4tarefa (by decide) (by decide) (by decide)⟩

end NeurelixNexus
